import Mathlib

/-!
Verification development for the Physics3D simulation driver
(`simulation.py`).  The script couples a Gaussian-splat scene, an MPM
continuum solver and a video-guidance model.  We shallowly embed the
pieces of the driver that the stated properties talk about:

* the coordinate normalizer (rotation sequence, centroid/scale
  normalization, cube-center shift) and its inverse, over exact
  rationals;
* the particle partition steps (opacity thresholding, movable-region
  freeze, bounding-box sim-area freeze) and the per-frame array
  assembly handed to the rasterizer;
* the gradient rescaling formula used for the four material fields;
* the control flow of the calibration loop as an event trace
  (parameter injection, boundary conditions, per-stage finalize,
  warm-up substeps, per-frame substeps inside/outside the tape,
  parameter update, reset, even-stage output rollout).

Machine floats are modelled by ℚ, so "within floating-point
tolerance" statements become exact identities.
-/

namespace Physics3D

/-! ## Coordinate normalizer (claim C1)

The driver applies the forward pipeline at `simulation.py:184-217`
and the inverse pipeline at `simulation.py:449-457` / `574-575`.
The bodies of the transform helpers live in
`utils/transformation_utils.py`, which is not part of the provided
source tree; they are modelled from the spec (§4.1) below.  Positions
are vectors in ℚ³, covariances symmetric 3×3 matrices (the packed
6-float representation of the code carries the same data). -/

abbrev V3 := Fin 3 → ℚ

abbrev M3 := Matrix (Fin 3) (Fin 3) ℚ

/-- Modelled from the spec: `apply_rotations` of
`utils/transformation_utils.py` (absent from `src/`) applies the
ordered rotation sequence to a position ("apply rotation sequence to
positions"). -/
def apply_rotations (p : V3) (rs : List M3) : V3 :=
  rs.foldl (fun q R => R.mulVec q) p

/-- Modelled from the spec: `apply_cov_rotations` conjugates the
covariance by each rotation in order ("covariance transforms as
`R Σ Rᵗ`"). -/
def apply_cov_rotations (c : M3) (rs : List M3) : M3 :=
  rs.foldl (fun s R => R * s * R.transpose) c

/-- Modelled from the spec: `apply_inverse_rotations` applies the
inverse rotations in reverse order ("applies inverse rotations"). -/
def apply_inverse_rotations (p : V3) (rs : List M3) : V3 :=
  rs.reverse.foldl (fun q R => R.transpose.mulVec q) p

/-- Modelled from the spec: inverse covariance conjugation, reverse
order with transposed rotations. -/
def apply_inverse_cov_rotations (c : M3) (rs : List M3) : M3 :=
  rs.reverse.foldl (fun s R => R.transpose * s * R) c

/-- Modelled from the spec: `transform2origin` translates so the
centroid `m` sits at the origin and rescales by the uniform factor
`s` chosen from the set's bounding statistics (the Transform Record
carries `s` and `m`). -/
def transform2origin (p : V3) (s : ℚ) (m : V3) : V3 :=
  fun i => (p i - m i) * s

/-- Modelled from the spec: `shift2center111` translates the
normalized set to the fixed cube center inside the grid domain. -/
def shift2center111 (p : V3) : V3 :=
  fun i => p i + 1

/-- Modelled from the spec: `undoshift2center111` undoes the cube
shift. -/
def undoshift2center111 (p : V3) : V3 :=
  fun i => p i - 1

/-- Modelled from the spec: `undotransform2origin` undoes the scale
and the centroid translation. -/
def undotransform2origin (p : V3) (s : ℚ) (m : V3) : V3 :=
  fun i => p i / s + m i

/-- Forward pipeline of the driver (`simulation.py:188,212-217`):
rotate the position, normalize to the origin, shift to the cube
center; rotate-conjugate the covariance then multiply by `s²`. -/
def to_simulation (p : V3) (c : M3) (rs : List M3) (s : ℚ) (m : V3) :
    V3 × M3 :=
  (shift2center111 (transform2origin (apply_rotations p rs) s m),
   (s * s) • apply_cov_rotations c rs)

/-- Inverse pipeline of the driver (`simulation.py:449-457`): undo the
cube shift, undo scale and centroid, apply inverse rotations; divide
the covariance by `s²` then inverse-conjugate. -/
def from_simulation (p : V3) (c : M3) (rs : List M3) (s : ℚ) (m : V3) :
    V3 × M3 :=
  (apply_inverse_rotations (undotransform2origin (undoshift2center111 p) s m) rs,
   apply_inverse_cov_rotations ((s * s)⁻¹ • c) rs)

theorem apply_rotations_cons (p : V3) (R : M3) (rs : List M3) :
    apply_rotations p (R :: rs) = apply_rotations (R.mulVec p) rs := rfl

theorem apply_inverse_rotations_cons (p : V3) (R : M3) (rs : List M3) :
    apply_inverse_rotations p (R :: rs) =
      R.transpose.mulVec (apply_inverse_rotations p rs) := by
  unfold apply_inverse_rotations
  simp [List.foldl_append]

theorem apply_cov_rotations_cons (c : M3) (R : M3) (rs : List M3) :
    apply_cov_rotations c (R :: rs) =
      apply_cov_rotations (R * c * R.transpose) rs := rfl

theorem apply_inverse_cov_rotations_cons (c : M3) (R : M3) (rs : List M3) :
    apply_inverse_cov_rotations c (R :: rs) =
      R.transpose * apply_inverse_cov_rotations c rs * R := by
  unfold apply_inverse_cov_rotations
  simp [List.foldl_append]

theorem inverse_rotations_left_inverse (rs : List M3)
    (h : ∀ R ∈ rs, R.transpose * R = 1) (p : V3) :
    apply_inverse_rotations (apply_rotations p rs) rs = p := by
  induction rs generalizing p with
  | nil => rfl
  | cons R rs ih =>
      rw [apply_rotations_cons, apply_inverse_rotations_cons,
        ih (fun S hS => h S (List.mem_cons_of_mem _ hS)),
        Matrix.mulVec_mulVec, h R (List.mem_cons_self _ _),
        Matrix.one_mulVec]

theorem inverse_cov_rotations_left_inverse (rs : List M3)
    (h : ∀ R ∈ rs, R.transpose * R = 1) (c : M3) :
    apply_inverse_cov_rotations (apply_cov_rotations c rs) rs = c := by
  induction rs generalizing c with
  | nil => rfl
  | cons R rs ih =>
      rw [apply_cov_rotations_cons, apply_inverse_cov_rotations_cons,
        ih (fun S hS => h S (List.mem_cons_of_mem _ hS))]
      have hR := h R (List.mem_cons_self _ _)
      calc R.transpose * (R * c * R.transpose) * R
          = (R.transpose * R) * c * (R.transpose * R) := by
            simp [Matrix.mul_assoc]
        _ = c := by rw [hR]; simp

/-- C1.  Applying the coordinate normalizer's forward pipeline and then
the inverse pipeline returns the original position and covariance
exactly (ℚ models the floats, so "within floating-point tolerance"
becomes equality), for any nonzero scale and any sequence of
orthogonal rotation matrices. -/
theorem c1_normalizer_roundtrip (p : V3) (c : M3) (rs : List M3)
    (s : ℚ) (m : V3) (hs : s ≠ 0)
    (hR : ∀ R ∈ rs, R.transpose * R = 1) :
    from_simulation (to_simulation p c rs s m).1
      (to_simulation p c rs s m).2 rs s m = (p, c) := by
  unfold to_simulation from_simulation
  dsimp only
  simp only [Prod.mk.injEq]
  constructor
  · have hpos : undotransform2origin
        (undoshift2center111
          (shift2center111 (transform2origin (apply_rotations p rs) s m)))
        s m = apply_rotations p rs := by
      funext i
      simp only [undotransform2origin, undoshift2center111,
        shift2center111, transform2origin]
      field_simp
    rw [hpos, inverse_rotations_left_inverse rs hR]
  · have hss : (s * s)⁻¹ • (s * s) • apply_cov_rotations c rs =
        apply_cov_rotations c rs := by
      rw [smul_smul, inv_mul_cancel₀ (mul_ne_zero hs hs), one_smul]
    rw [hss, inverse_cov_rotations_left_inverse rs hR]

/-- Rotation by 90° about the z axis, used as a concrete witness. -/
def rotZ90 : M3 := Matrix.of ![![0, -1, 0], ![1, 0, 0], ![0, 0, 1]]

/-- Concrete witness particle position. -/
def wPos : V3 := ![3, -2, 5]

/-- Concrete witness covariance. -/
def wCov : M3 := Matrix.of ![![2, 1, 0], ![1, 4, -1], ![0, -1, 3]]

/-- Witness for C1 at a concrete position, covariance, 90° rotation,
scale 2 and centroid (1, 1, 1). -/
theorem c1_normalizer_roundtrip_witness :
    from_simulation (to_simulation wPos wCov [rotZ90] 2 ![1, 1, 1]).1
      (to_simulation wPos wCov [rotZ90] 2 ![1, 1, 1]).2 [rotZ90] 2 ![1, 1, 1]
      = (wPos, wCov) :=
  c1_normalizer_roundtrip wPos wCov [rotZ90] 2 ![1, 1, 1] (by norm_num)
    (by
      intro R hR
      simp only [List.mem_singleton] at hR
      subst hR
      refine Matrix.ext fun i j => ?_
      fin_cases i <;> fin_cases j <;>
        simp [rotZ90, Matrix.mul_apply, Matrix.transpose,
          Matrix.vecHead, Matrix.vecTail, Matrix.of_apply,
          Fin.sum_univ_three, Matrix.one_apply])

/-! ## Gradient rescaling for the material fields (claim C3)

After each stage's backward pass the driver rescales the gradient of
each of the four material fields — `E` (`simulation.py:504-506`),
`mu_N` (510-512), `lam_N` (515-517) and `viscosity` (520-522) — with
the same formula
`(grad - min) / (max - min) - 0.5 if max - min != 0 else zeros`.
A gradient tensor is a list of rationals. -/

/-- Maximum of a gradient tensor, as `torch.max` over its elements
(0 as a junk value on the empty tensor, on which `torch.max` has no
defined reduction). -/
def listMax : List ℚ → ℚ
  | [] => 0
  | x :: xs => xs.foldl max x

/-- Minimum of a gradient tensor, as `torch.min`. -/
def listMin : List ℚ → ℚ
  | [] => 0
  | x :: xs => xs.foldl min x

/-- Gradient rescaling used for all four material fields
(`simulation.py:506,512,517,522`): subtract the minimum, divide by
the range, shift by one half; all zeros when the range is zero. -/
def rescale_grad (g : List ℚ) : List ℚ :=
  if listMax g - listMin g ≠ 0 then
    g.map (fun x => (x - listMin g) / (listMax g - listMin g) - 1/2)
  else
    g.map (fun _ => 0)

theorem foldl_max_le_init (l : List ℚ) : ∀ a : ℚ, a ≤ l.foldl max a := by
  induction l with
  | nil => intro a; simp
  | cons x xs ih => intro a; exact le_trans (le_max_left a x) (ih (max a x))

theorem le_foldl_max_of_mem (l : List ℚ) :
    ∀ (a x : ℚ), x ∈ l → x ≤ l.foldl max a := by
  induction l with
  | nil => intro a x hx; cases hx
  | cons y ys ih =>
      intro a x hx
      rcases List.mem_cons.mp hx with h | h
      · subst h
        exact le_trans (le_max_right a x) (foldl_max_le_init ys (max a x))
      · exact ih (max a y) x h

theorem foldl_min_ge_init (l : List ℚ) : ∀ a : ℚ, l.foldl min a ≤ a := by
  induction l with
  | nil => intro a; simp
  | cons x xs ih => intro a; exact le_trans (ih (min a x)) (min_le_left a x)

theorem foldl_min_le_of_mem (l : List ℚ) :
    ∀ (a x : ℚ), x ∈ l → l.foldl min a ≤ x := by
  induction l with
  | nil => intro a x hx; cases hx
  | cons y ys ih =>
      intro a x hx
      rcases List.mem_cons.mp hx with h | h
      · subst h
        exact le_trans (foldl_min_ge_init ys (min a x)) (min_le_right a x)
      · exact ih (min a y) x h

theorem le_listMax_of_mem {g : List ℚ} {x : ℚ} (h : x ∈ g) : x ≤ listMax g := by
  cases g with
  | nil => cases h
  | cons y ys =>
      rcases List.mem_cons.mp h with h' | h'
      · subst h'; exact foldl_max_le_init ys x
      · exact le_foldl_max_of_mem ys y x h'

theorem listMin_le_of_mem {g : List ℚ} {x : ℚ} (h : x ∈ g) : listMin g ≤ x := by
  cases g with
  | nil => cases h
  | cons y ys =>
      rcases List.mem_cons.mp h with h' | h'
      · subst h'; exact foldl_min_ge_init ys x
      · exact foldl_min_le_of_mem ys y x h'

/-- C3.  For each material field's gradient tensor, every rescaled
entry lies in the symmetric interval `[-0.5, 0.5]`, and a constant
gradient tensor (maximum equals minimum) is rescaled to the all-zero
tensor rather than dividing by zero. -/
theorem c3_grad_rescale_bounds (g : List ℚ) :
    (∀ x ∈ rescale_grad g, -(1/2 : ℚ) ≤ x ∧ x ≤ 1/2) ∧
    (listMax g = listMin g → rescale_grad g = g.map fun _ => 0) := by
  constructor
  · intro x hx
    unfold rescale_grad at hx
    by_cases hd : listMax g - listMin g ≠ 0
    · rw [if_pos hd] at hx
      rcases List.mem_map.mp hx with ⟨y, hy, rfl⟩
      have hmn : listMin g ≤ y := listMin_le_of_mem hy
      have hmx : y ≤ listMax g := le_listMax_of_mem hy
      have hpos : 0 < listMax g - listMin g :=
        lt_of_le_of_ne (by linarith) (Ne.symm hd)
      have h1 : 0 ≤ (y - listMin g) / (listMax g - listMin g) :=
        div_nonneg (by linarith) (le_of_lt hpos)
      have h2 : (y - listMin g) / (listMax g - listMin g) ≤ 1 :=
        (div_le_one hpos).mpr (by linarith)
      constructor <;> linarith
    · rw [if_neg hd] at hx
      rcases List.mem_map.mp hx with ⟨y, _, rfl⟩
      norm_num
  · intro h
    unfold rescale_grad
    rw [if_neg (by rw [h]; simp)]

/-- Witness for C3: the gradient tensor `[1, 3]` rescales to
`[-1/2, 1/2]`, whose entries the theorem bounds, and the constant
tensor `[2, 2]` rescales to all zeros. -/
theorem c3_grad_rescale_bounds_witness :
    (-(1/2 : ℚ) ≤ -(1/2 : ℚ) ∧ -(1/2 : ℚ) ≤ 1/2) ∧
      rescale_grad [2, 2] = [0, 0] := by
  constructor
  · refine (c3_grad_rescale_bounds [1, 3]).1 (-(1/2)) ?_
    have : rescale_grad [1, 3] = [-(1/2), 1/2] := by
      unfold rescale_grad listMax listMin
      norm_num
    rw [this]
    simp
  · have h := (c3_grad_rescale_bounds [2, 2]).2 (by rfl)
    rw [h]
    rfl

/-! ## Per-frame rasterizer input assembly (claims C2 and C6)

Each rendered frame rebuilds the rasterizer's four parallel arrays
from the simulated visible particles and the frozen ("unselected")
particle arrays, `simulation.py:458-469` (differentiable rollout) and
`576-587` (output rollout): if a bounding-box sim-area is configured
the frozen block is appended; if a movable-region point cloud exists
it is appended again — but in that second block the opacity and color
arrays are rebuilt from the base `opacity_render` / `shs_render`
instead of extending the current arrays. -/

/-- Assembly of the four arrays handed to the rasterizer, exactly as
in `simulation.py:458-469`.  `pos`/`cov`/`opac`/`shs` are the arrays
for the simulated visible particles; `upos`/`ucov`/`uopac`/`ushs` are
the frozen-particle arrays. -/
def assembleRasterInputs {α β γ δ : Type} (simArea moving : Bool)
    (pos : List α) (cov : List β) (opac : List γ) (shs : List δ)
    (upos : List α) (ucov : List β) (uopac : List γ) (ushs : List δ) :
    List α × List β × List γ × List δ :=
  let pos1 := if simArea then pos ++ upos else pos
  let cov1 := if simArea then cov ++ ucov else cov
  let opac1 := if simArea then opac ++ uopac else opac
  let shs1 := if simArea then shs ++ ushs else shs
  let pos2 := if moving then pos1 ++ upos else pos1
  let cov2 := if moving then cov1 ++ ucov else cov1
  let opac2 := if moving then opac ++ uopac else opac1
  let shs2 := if moving then shs ++ ushs else shs1
  (pos2, cov2, opac2, shs2)

/-- Frozen block appended to each base array when at most one of the
two freeze configurations is active. -/
def frozenPart {α : Type} (simArea moving : Bool) (u : List α) : List α :=
  if simArea || moving then u else []

/-- C2 counterexample: with both the movable-region point cloud and
the bounding-box sim-area configured, one visible particle and one
frozen particle, the position array handed to the rasterizer has
3 entries but the opacity array has 2 — the four arrays do not have
identical length. -/
theorem c2_counterexample :
    (assembleRasterInputs true true [0] [0] [0] [0] [1] [1] [1] [1]).1.length = 3 ∧
    (assembleRasterInputs true true
      [0] [0] [0] [0] [1] [1] [1] [1]).2.2.1.length = 2 := by
  decide

/-- C2 (amended).  For every frame in which at most one of the
movable-region point cloud and the bounding-box sim-area is
configured, each of the four rasterizer arrays equals its base array
followed by the corresponding frozen array, so all four have
identical length equal to the visible-plus-frozen particle count and
index `i` refers to the same physical particle in all four. -/
theorem c2_raster_alignment {α β γ δ : Type} (simArea moving : Bool)
    (n f : Nat) (h : ¬(simArea = true ∧ moving = true))
    (pos : List α) (cov : List β) (opac : List γ) (shs : List δ)
    (upos : List α) (ucov : List β) (uopac : List γ) (ushs : List δ)
    (hp : pos.length = n) (hc : cov.length = n)
    (ho : opac.length = n) (hs : shs.length = n)
    (hup : upos.length = f) (huc : ucov.length = f)
    (huo : uopac.length = f) (hus : ushs.length = f) :
    assembleRasterInputs simArea moving pos cov opac shs upos ucov uopac ushs =
      (pos ++ frozenPart simArea moving upos,
       cov ++ frozenPart simArea moving ucov,
       opac ++ frozenPart simArea moving uopac,
       shs ++ frozenPart simArea moving ushs) ∧
    (assembleRasterInputs simArea moving pos cov opac shs
        upos ucov uopac ushs).1.length =
      n + (if simArea || moving then f else 0) ∧
    (assembleRasterInputs simArea moving pos cov opac shs
        upos ucov uopac ushs).2.1.length =
      n + (if simArea || moving then f else 0) ∧
    (assembleRasterInputs simArea moving pos cov opac shs
        upos ucov uopac ushs).2.2.1.length =
      n + (if simArea || moving then f else 0) ∧
    (assembleRasterInputs simArea moving pos cov opac shs
        upos ucov uopac ushs).2.2.2.length =
      n + (if simArea || moving then f else 0) := by
  cases simArea <;> cases moving <;>
    simp_all [assembleRasterInputs, frozenPart]

/-- Witness for C2 at a concrete frame: sim-area configured, no
movable-region cloud, one visible and one frozen particle. -/
theorem c2_raster_alignment_witness :
    assembleRasterInputs true false [10] [20] [30] [40] [11] [21] [31] [41] =
      ([10] ++ frozenPart true false [11],
       [20] ++ frozenPart true false [21],
       [30] ++ frozenPart true false [31],
       [40] ++ frozenPart true false [41]) ∧
    (assembleRasterInputs true false
      [10] [20] [30] [40] [11] [21] [31] [41]).1.length =
      1 + (if (true : Bool) || false then 1 else 0) ∧
    (assembleRasterInputs true false
      [10] [20] [30] [40] [11] [21] [31] [41]).2.1.length =
      1 + (if (true : Bool) || false then 1 else 0) ∧
    (assembleRasterInputs true false
      [10] [20] [30] [40] [11] [21] [31] [41]).2.2.1.length =
      1 + (if (true : Bool) || false then 1 else 0) ∧
    (assembleRasterInputs true false
      [10] [20] [30] [40] [11] [21] [31] [41]).2.2.2.length =
      1 + (if (true : Bool) || false then 1 else 0) :=
  c2_raster_alignment true false 1 1 (by simp)
    [10] [20] [30] [40] [11] [21] [31] [41]
    rfl rfl rfl rfl rfl rfl rfl rfl

/-! ## Frozen-particle partitions (claim C6)

Two steps can freeze particles before simulation: the movable-region
point cloud (`simulation.py:156-174`, mask from `find_far_points`)
and the bounding-box sim-area (`simulation.py:194-210`).  Both write
their frozen particles into the same `unselected_*` arrays — the
second step *overwrites* the first — and at render time the frozen
arrays are appended once per active configuration
(`simulation.py:460-469`).  The masks themselves come from external
geometry helpers, so they enter the model as boolean lists; particles
are tracked by identity. -/

/-- Elements of `xs` at the mask's `true` positions (boolean-mask
indexing `xs[m]`). -/
def maskSelect {α : Type} (m : List Bool) (xs : List α) : List α :=
  (m.zip xs).filterMap (fun p => if p.1 then some p.2 else none)

/-- Elements of `xs` at the mask's `false` positions (`xs[~m]`). -/
def maskReject {α : Type} (m : List Bool) (xs : List α) : List α :=
  (m.zip xs).filterMap (fun p => if p.1 then none else some p.2)

/-- The two partition steps of the driver, returning
`(kept, unselected)`.  When the movable-region cloud exists, mask
`m1` marks "far" particles as frozen; when the sim-area box is
configured, mask `m2` marks in-box particles as kept and the frozen
arrays are overwritten (`simulation.py:202-205`). -/
def partitionFrozen {α : Type} (movingCfg simCfg : Bool)
    (m1 m2 : List Bool) (xs : List α) : List α × List α :=
  let step1 := if movingCfg then (maskReject m1 xs, maskSelect m1 xs)
    else (xs, [])
  if simCfg then (maskSelect m2 step1.1, maskReject m2 step1.1) else step1

/-- Render-time re-attachment of the frozen arrays to the kept
particles, once per active configuration (`simulation.py:460-469`). -/
def renderAttach {α : Type} (simCfg movingCfg : Bool)
    (kept unsel : List α) : List α :=
  let r1 := if simCfg then kept ++ unsel else kept
  if movingCfg then r1 ++ unsel else r1

/-- C6 counterexample: with both configurations active on particles
`[0, 1, 2]`, the movable-region step freezes particle 0 and the
sim-area step then freezes particle 1 of the remainder.  Particle 0
is frozen by the first step yet appears zero times in the rendered
arrays (the sim-area step overwrote the frozen arrays), and particle
1 appears twice — so frozen particles are neither retained verbatim
nor re-attached exactly once. -/
theorem c6_counterexample :
    0 ∈ maskSelect [true, false, false] [0, 1, 2] ∧
    (renderAttach true true
      (partitionFrozen true true [true, false, false] [false, true] [0, 1, 2]).1
      (partitionFrozen true true [true, false, false] [false, true]
        [0, 1, 2]).2).count 0 = 0 ∧
    (renderAttach true true
      (partitionFrozen true true [true, false, false] [false, true] [0, 1, 2]).1
      (partitionFrozen true true [true, false, false] [false, true]
        [0, 1, 2]).2).count 1 = 2 := by
  decide

/-- C6 (amended).  When at most one of the movable-region point cloud
and the bounding-box sim-area is configured, the active step's frozen
particles are retained verbatim in the frozen arrays and re-attached
exactly once at render time: the rendered arrays are exactly the kept
particles followed by one copy of the frozen particles.  When both
are configured this fails: the sim-area step overwrites the
movable-region frozen arrays (dropping those particles) and the
surviving frozen arrays are attached twice. -/
theorem c6_partition_compose {α : Type} (movingCfg simCfg : Bool)
    (h : ¬(movingCfg = true ∧ simCfg = true))
    (m1 m2 : List Bool) (xs : List α) :
    renderAttach simCfg movingCfg
        (partitionFrozen movingCfg simCfg m1 m2 xs).1
        (partitionFrozen movingCfg simCfg m1 m2 xs).2 =
      (partitionFrozen movingCfg simCfg m1 m2 xs).1 ++
        (partitionFrozen movingCfg simCfg m1 m2 xs).2 ∧
    (movingCfg = true →
      (partitionFrozen movingCfg simCfg m1 m2 xs).2 = maskSelect m1 xs) ∧
    (simCfg = true →
      (partitionFrozen movingCfg simCfg m1 m2 xs).2 = maskReject m2 xs) := by
  cases movingCfg <;> cases simCfg <;>
    simp_all [partitionFrozen, renderAttach]

/-- Witness for C6 with only the movable-region cloud configured:
particle 0 is frozen, retained verbatim and attached exactly once. -/
theorem c6_partition_compose_witness :
    renderAttach false true
        (partitionFrozen true false [true, false, false] [] [0, 1, 2]).1
        (partitionFrozen true false [true, false, false] [] [0, 1, 2]).2 =
      (partitionFrozen true false [true, false, false] [] [0, 1, 2]).1 ++
        (partitionFrozen true false [true, false, false] [] [0, 1, 2]).2 ∧
    ((true : Bool) = true →
      (partitionFrozen true false [true, false, false] [] [0, 1, 2]).2 =
        maskSelect [true, false, false] [0, 1, 2]) ∧
    ((false : Bool) = true →
      (partitionFrozen true false [true, false, false] [] [0, 1, 2]).2 =
        maskReject [] [0, 1, 2]) :=
  c6_partition_compose true false (by simp) [true, false, false] []
    ([0, 1, 2] : List Nat)

/-! ## Control flow of the driver and calibration loop
(claims C4, C8, C9, C10)

The driver's observable control flow is embedded as an event trace:
solver load (`simulation.py:318`), material parameter injection
(`:325`), boundary-condition setup (`:328`), then fifty calibration
stages (`:407-611`), each opening the tape with `finalize_mu_lam`
(`:412`), running warm-up substeps (`:414-415`), sixteen recorded
frames (`:417-482`) whose final substep per frame runs inside the
tape (`:437-440`), the parameter update and reset (`:507-534`), and
on even stages the 128-frame output rollout with one image write per
frame followed by video assembly (`:535-611`). -/

inductive Event : Type
  | loadData
  | setParams
  | setBC
  | finalize
  | substep (inTape : Bool)
  | renderFrame
  | updateParam
  | resetPos
  | writeImage
  | saveVideo
  deriving DecidableEq

/-- Stage count per warm-up cycle, `stage_num = 8`
(`simulation.py:405`). -/
def stageNum : Nat := 8

/-- Frames per recorded stage, `frame_per_stage = 16`
(`simulation.py:406`). -/
def framePerStage : Nat := 16

/-- Warm-up substeps run before stage `b`'s recorded rollout:
`range(step_per_frame * (batch % stage_num))`
(`simulation.py:414`), for `spf = step_per_frame`. -/
def warmupCount (spf b : Nat) : Nat := spf * (b % stageNum)

/-- Substeps of one recorded frame (`simulation.py:437-441`):
`step_per_frame * (1 + stage_num) - 1` substeps outside the tape,
then one substep inside the tape, then the rasterizer call. -/
def frameTrace (spf : Nat) : List Event :=
  List.replicate (spf * (1 + stageNum) - 1) (Event.substep false) ++
    [Event.substep true, Event.renderFrame]

/-- One frame of the even-stage output rollout
(`simulation.py:557-610`): `step_per_frame` substeps, a render and an
image write. -/
def outputFrame (spf : Nat) : List Event :=
  List.replicate spf (Event.substep false) ++
    [Event.renderFrame, Event.writeImage]

/-- Events of calibration stage `b` (`simulation.py:407-611`). -/
def stageTrace (spf b : Nat) : List Event :=
  [Event.finalize] ++
    List.replicate (warmupCount spf b) (Event.substep false) ++
    (List.replicate framePerStage (frameTrace spf)).flatten ++
    [Event.updateParam, Event.resetPos] ++
    (if b % 2 = 0 then
      [Event.finalize] ++
        (List.replicate (stageNum * framePerStage) (outputFrame spf)).flatten ++
        [Event.saveVideo]
    else [])

/-- Events of a whole run with `nb` stages: load, parameter
injection, boundary conditions (`simulation.py:318-328`), then the
stages in order. -/
def programTrace (spf nb : Nat) : List Event :=
  [Event.loadData, Event.setParams, Event.setBC] ++
    ((List.range nb).map (stageTrace spf)).flatten

/-- Formalization of claim C4 as stated: every boundary-condition
setup event is preceded by some material-finalization event. -/
def bcAfterFinalize (t : List Event) : Prop :=
  ∀ j < t.length, t.get? j = some Event.setBC →
    ∃ i < j, t.get? i = some Event.finalize

theorem setBC_not_mem_stageTrace (spf b : Nat) :
    Event.setBC ∉ stageTrace spf b := by
  intro h
  by_cases hb : b % 2 = 0
  · simp [stageTrace, frameTrace, outputFrame, hb, List.mem_flatten,
      List.mem_replicate] at h
    rcases h with ⟨l, ⟨-, rfl⟩, hl⟩ | ⟨l, ⟨-, rfl⟩, hl⟩ <;>
      simp [List.mem_replicate] at hl
  · simp [stageTrace, frameTrace, outputFrame, hb, List.mem_flatten,
      List.mem_replicate] at h
    obtain ⟨l, ⟨-, rfl⟩, hl⟩ := h
    simp [List.mem_replicate] at hl

set_option maxRecDepth 4000 in
/-- C4 counterexample: in the run's event trace the single
boundary-condition setup (index 2) precedes every material
finalization — the first `finalize_mu_lam` only happens inside the
first calibration stage (`simulation.py:328` versus `:412`), so
boundary-condition setup is not performed after material
finalization. -/
theorem c4_counterexample : ¬ bcAfterFinalize (programTrace 0 1) := by
  intro h
  obtain ⟨i, hi, hgi⟩ := h 2 (by decide) (by decide)
  interval_cases i <;> exact absurd hgi (by decide)

/-- C4 (amended).  In every run, boundary-condition setup happens
exactly once, immediately after material parameter injection and
strictly before every material finalization: `set_boundary_conditions`
runs at trace index 2, after `set_parameters_dict`, and every
`finalize_mu_lam` event occurs later (the first one at the start of
the first calibration stage). -/
theorem c4_bc_before_finalize (spf nb : Nat) :
    (programTrace spf nb).get? 1 = some Event.setParams ∧
    (programTrace spf nb).get? 2 = some Event.setBC ∧
    (∀ j, (programTrace spf nb).get? j = some Event.setBC → j = 2) ∧
    (∀ i, (programTrace spf nb).get? i = some Event.finalize → 2 < i) := by
  refine ⟨rfl, rfl, ?_, ?_⟩
  · intro j hj
    match j with
    | 0 => simp [programTrace] at hj
    | 1 => simp [programTrace] at hj
    | 2 => rfl
    | j + 3 =>
        exfalso
        rw [programTrace, List.get?_append_right (by simp)] at hj
        have hmem := List.get?_mem hj
        simp only [List.mem_flatten, List.mem_map, List.mem_range] at hmem
        obtain ⟨l, ⟨b, _, rfl⟩, hmem⟩ := hmem
        exact setBC_not_mem_stageTrace spf b hmem
  · intro i hi
    match i with
    | 0 => simp [programTrace] at hi
    | 1 => simp [programTrace] at hi
    | 2 => simp [programTrace] at hi
    | i + 3 => omega

set_option maxRecDepth 4000 in
/-- Witness for C4 (amended) at the concrete run `programTrace 0 1`:
index 3 holds a finalization event and lies after index 2. -/
theorem c4_bc_before_finalize_witness :
    (programTrace 0 1).get? 2 = some Event.setBC ∧
    (programTrace 0 1).get? 3 = some Event.finalize ∧ 2 < 3 :=
  ⟨by decide, by decide, (c4_bc_before_finalize 0 1).2.2.2 3 (by decide)⟩

/-- Tape flags of the substeps occurring in an event list, in
order. -/
def substepFlags (t : List Event) : List Bool :=
  t.filterMap (fun e => match e with
    | Event.substep b => some b
    | _ => none)

theorem substepFlags_replicate (n : Nat) (b : Bool) :
    substepFlags (List.replicate n (Event.substep b)) =
      List.replicate n b := by
  induction n with
  | zero => rfl
  | succ n ih =>
      simp [List.replicate_succ, substepFlags, List.filterMap_cons, ih]

theorem substepFlags_frameTrace (spf : Nat) :
    substepFlags (frameTrace spf) =
      List.replicate (spf * (1 + stageNum) - 1) false ++ [true] := by
  unfold frameTrace
  rw [substepFlags, List.filterMap_append, ← substepFlags]
  rw [substepFlags_replicate]
  rfl

/-- C8.  In each recorded frame of a stage's rollout, exactly one
substep runs inside the gradient tape, it is the frame's final
substep, and every preceding substep of the frame runs outside the
tape. -/
theorem c8_last_substep_in_tape (spf : Nat) :
    substepFlags (frameTrace spf) ≠ [] ∧
    (substepFlags (frameTrace spf)).getLast? = some true ∧
    (substepFlags (frameTrace spf)).count true = 1 ∧
    (substepFlags (frameTrace spf)).dropLast =
      List.replicate (spf * (1 + stageNum) - 1) false := by
  rw [substepFlags_frameTrace]
  refine ⟨by simp, ?_, ?_, ?_⟩
  · rw [List.getLast?_concat]
  · simp [List.count_append, List.count_replicate]
  · rw [List.dropLast_concat]

theorem count_flatten_replicate (n : Nat) (l : List Event) (e : Event) :
    ((List.replicate n l).flatten).count e = n * l.count e := by
  induction n with
  | zero => simp
  | succ n ih =>
      simp [List.replicate_succ, List.count_append, ih, Nat.succ_mul,
        Nat.add_comm]

/-- C9.  A stage writes one image file per frame over the full
`stage_num * frame_per_stage` horizon and assembles a video if and
only if its stage index is even; odd stages write no images and no
video. -/
theorem c9_even_stage_output (spf b : Nat) :
    (stageTrace spf b).count Event.writeImage =
      (if b % 2 = 0 then stageNum * framePerStage else 0) ∧
    (Event.saveVideo ∈ stageTrace spf b ↔ b % 2 = 0) := by
  by_cases hb : b % 2 = 0 <;>
    simp [stageTrace, frameTrace, outputFrame, hb, List.count_append,
      List.count_replicate, count_flatten_replicate, List.mem_flatten,
      List.mem_replicate]

/-- C10 counterexample: with one substep per frame, stage 7 runs 7
warm-up substeps but the later stage 8 runs 0 — the warm-up count is
not monotone in the stage index (`batch % stage_num` resets every 8
stages). -/
theorem c10_counterexample :
    7 < 8 ∧ warmupCount 1 8 < warmupCount 1 7 := by decide

/-- C10 (amended).  The warm-up substep count grows with the stage
index within each cycle of `stage_num` stages: whenever
`i % stage_num ≤ j % stage_num`, stage `j` runs at least as many
warm-up substeps as stage `i`.  Across cycle boundaries it resets to
zero. -/
theorem c10_warmup_monotone_mod (spf i j : Nat)
    (h : i % stageNum ≤ j % stageNum) :
    warmupCount spf i ≤ warmupCount spf j :=
  Nat.mul_le_mul_left spf h

/-- Witness for C10 (amended): stages 3 and 5 of the first cycle. -/
theorem c10_warmup_monotone_mod_witness :
    3 % stageNum ≤ 5 % stageNum ∧ warmupCount 2 3 ≤ warmupCount 2 5 :=
  ⟨by decide, c10_warmup_monotone_mod 2 3 5 (by decide)⟩

/-! ## Opacity thresholding and solver load (claim C5)

The driver drops low-opacity particles with a strict mask
(`simulation.py:141-147`) and later hands the retained arrays to
`load_initial_data_from_torch` (`simulation.py:317-324`).  Between
those points the script performs no emptiness validation of the
retained set (the only guard is the sim-area arity assert at
`:196`). -/

/-- Opacity thresholding (`simulation.py:142`): keep the opacities
strictly above the threshold (`init_opacity[:, 0] > threshold`). -/
def opacityFilter (th : ℚ) (ops : List ℚ) : List ℚ :=
  ops.filter (fun o => th < o)

/-- The script's control path from thresholding to the solver load:
`simulation.py` raises no error about the retained set's size, so
the (possibly empty) filtered arrays always reach
`load_initial_data_from_torch` — the path always returns `ok`. -/
def proceedToLoad (th : ℚ) (ops : List ℚ) : Except String (List ℚ) :=
  Except.ok (opacityFilter th ops)

/-- C5 counterexample: with a single particle of opacity 1/2 and
threshold 1 (at or above every opacity), the retained set is empty
and the script still proceeds to the solver load with the empty set —
no fatal configuration/input error is produced before simulator
work. -/
theorem c5_counterexample :
    proceedToLoad 1 [1/2] = Except.ok [] ∧
    ∀ msg, proceedToLoad 1 [1/2] ≠ Except.error msg := by
  constructor
  · unfold proceedToLoad opacityFilter
    norm_num [List.filter]
  · intro msg h
    exact absurd h (by unfold proceedToLoad; simp)

/-- C5 (amended).  When the opacity threshold is at or above every
particle's opacity, the thresholding leaves the retained set empty
and the script proceeds to the solver load with that empty set; no
fail-fast configuration or input error is raised on the way. -/
theorem c5_empty_retained_reaches_load (th : ℚ) (ops : List ℚ)
    (h : ∀ o ∈ ops, o ≤ th) :
    proceedToLoad th ops = Except.ok [] := by
  unfold proceedToLoad opacityFilter
  have : ops.filter (fun o => decide (th < o)) = [] := by
    rw [List.filter_eq_nil_iff]
    intro o ho
    simpa using not_lt.mpr (h o ho)
  simpa using this

/-- Witness for C5 (amended): threshold 1 over opacities
`[1/2, 1/4]`. -/
theorem c5_empty_retained_reaches_load_witness :
    proceedToLoad 1 [1/2, 1/4] = Except.ok [] :=
  c5_empty_retained_reaches_load 1 [1/2, 1/4] (by
    intro o ho
    rcases List.mem_cons.mp ho with rfl | ho
    · norm_num
    · rcases List.mem_singleton.mp ho with rfl
      norm_num)

/-! ## Per-stage reset and material fields (claim C7)

The calibration loop updates the four material fields via
`update_param` launches (`simulation.py:507,513,518,523`) and then
calls `mpm_solver.reset_pos_from_torch(mpm_init_pos, mpm_init_vol,
mpm_init_cov)` (`simulation.py:534`).  The three `mpm_init_*` arrays
are built once before the loop (`simulation.py:232-309`) and never
reassigned, so they are exactly the load-time checkpoint. -/

/-- Solver state visible to the driver: the per-particle position,
volume and covariance arrays plus the four material parameter
fields. -/
structure SolverState where
  x : List ℚ
  vol : List ℚ
  cov : List ℚ
  E : List ℚ
  mu_N : List ℚ
  lam_N : List ℚ
  viscosity : List ℚ

/-- The four `update_param` launches of the update step write new
values into the four material field arrays and touch nothing else
(the kernel lives in `mpm_utils`, outside `src/`; modelled from the
spec: the update "mutat[es] the field in place"). -/
def applyFieldUpdates (s : SolverState) (e mu lam visc : List ℚ) :
    SolverState :=
  { s with E := e, mu_N := mu, lam_N := lam, viscosity := visc }

/-- Modelled from the spec: `reset_pos_from_torch` of the MPM solver
(not under `src/`) "restores positions/covariances/volumes to the
state captured at load time without re-deriving material fields"
(spec §4.3); it overwrites the three state arrays with its arguments
and leaves the material fields untouched. -/
def reset_pos_from_torch (s : SolverState) (x0 vol0 cov0 : List ℚ) :
    SolverState :=
  { s with x := x0, vol := vol0, cov := cov0 }

/-- C7.  The per-stage reset call restores positions, volumes and
covariances to the load-time checkpoint arrays it is given, while the
four just-updated material fields are exactly the values written by
the update step — the reset leaves them unchanged for the next
stage's material finalization to read. -/
theorem c7_reset_preserves_updated_fields (s : SolverState)
    (x0 vol0 cov0 e mu lam visc : List ℚ) :
    (reset_pos_from_torch (applyFieldUpdates s e mu lam visc)
        x0 vol0 cov0).x = x0 ∧
    (reset_pos_from_torch (applyFieldUpdates s e mu lam visc)
        x0 vol0 cov0).vol = vol0 ∧
    (reset_pos_from_torch (applyFieldUpdates s e mu lam visc)
        x0 vol0 cov0).cov = cov0 ∧
    (reset_pos_from_torch (applyFieldUpdates s e mu lam visc)
        x0 vol0 cov0).E = e ∧
    (reset_pos_from_torch (applyFieldUpdates s e mu lam visc)
        x0 vol0 cov0).mu_N = mu ∧
    (reset_pos_from_torch (applyFieldUpdates s e mu lam visc)
        x0 vol0 cov0).lam_N = lam ∧
    (reset_pos_from_torch (applyFieldUpdates s e mu lam visc)
        x0 vol0 cov0).viscosity = visc :=
  ⟨rfl, rfl, rfl, rfl, rfl, rfl, rfl⟩

end Physics3D
